import Mathlib

/-!
Verification of the replication client (`synapse/replication/tcp/client.py`):
the reconnect-with-backoff connection factory and the stream-data dispatcher.

The dispatcher `ReplicationDataHandler.on_rdata` is embedded as a pure
function producing the ordered list of externally visible effects (store
write, event fetch, max-ordering read, notifier call, push-pool nudge),
together with an optional propagated not-found failure.  The store is an
oracle parameter: `get_event` either returns the event or fails with a
not-found kind, as the store boundary specifies.

The backoff machinery of the base reconnecting factory is not part of the
excerpt, so its state transitions are modelled from the spec (marked in the
doc comments); the class attributes `initialDelay = 0.1` and `maxDelay = 1`
and the bodies of `buildProtocol`, `clientConnectionLost`,
`clientConnectionFailed` and `__init__` come from the source.
-/

/-- An events-stream row as used by `on_rdata`: the row-kind tag `row.type`
and the referenced event identifier `row.data.event_id`. -/
structure EventsStreamRow where
  type : String
  event_id : String
deriving DecidableEq, Repr

/-- The fields of a fetched event that `on_rdata` inspects:
`event.type`, `event.state_key` and `event.rejected_reason`. -/
structure Event where
  type : String
  state_key : String
  rejected_reason : Option String
deriving DecidableEq, Repr

namespace EventsStream

/-- Modelled from the spec: the name identifying the events stream
(`EventsStream.NAME`). -/
def NAME : String := "events"

end EventsStream

namespace EventsStreamEventRow

/-- Modelled from the spec: the row-kind tag of a full event row within the
events stream (`EventsStreamEventRow.TypeId`). -/
def TypeId : String := "ev"

end EventsStreamEventRow

namespace EventTypes

/-- Modelled from the spec: the membership-change event type
(`EventTypes.Member`). -/
def Member : String := "m.room.member"

end EventTypes

/-- One externally visible effect of the dispatcher, in call order. -/
inductive Effect where
  | processReplicationRows (stream_name instance_name : String) (token : Int)
      (rows : List EventsStreamRow)
  | getEvent (event_id : String) (allow_rejected : Bool)
  | getRoomMaxStreamOrdering
  | onNewRoomEvent (event : Event) (token max_token : Int)
      (extra_users : List String)
  | onNewNotifications (from_token to_token : Int)
deriving DecidableEq, Repr

/-- Modelled from the spec: the store boundary.  `getEvent` (with
`allowRejected: true`) returns the event or fails with a not-found kind,
modelled as `none`; `getRoomMaxStreamOrdering` returns an integer
watermark. -/
structure Store where
  getEvent : String → Option Event
  roomMaxStreamOrdering : Int

/-- Python truthiness of `event.rejected_reason` in
`if event.rejected_reason:` — `None` and the empty string are falsy. -/
def rejectedTruthy : Option String → Bool
  | none => false
  | some s => s != ""

/-- The loop body of `on_rdata` for one row of an events-stream batch:
skip rows of another kind; fetch the event allowing rejected ones (a
missing event makes the fetch fail with a not-found kind, which the code
does not catch); skip events with a truthy rejection reason; otherwise
compute `extra_users`, read the max stream ordering and call the notifier.
Returns the effects of this row and the propagated failure, if any. -/
def processRow (store : Store) (token : Int) (row : EventsStreamRow) :
    List Effect × Option String :=
  if row.type != EventsStreamEventRow.TypeId then ([], none)
  else
    match store.getEvent row.event_id with
    | none => ([Effect.getEvent row.event_id true], some row.event_id)
    | some event =>
      if rejectedTruthy event.rejected_reason then
        ([Effect.getEvent row.event_id true], none)
      else
        let extra_users : List String :=
          if event.type = EventTypes.Member then [event.state_key] else []
        ([Effect.getEvent row.event_id true,
          Effect.getRoomMaxStreamOrdering,
          Effect.onNewRoomEvent event token store.roomMaxStreamOrdering
            extra_users], none)

/-- The `for row in rows` loop of `on_rdata`: rows are processed in order;
a propagated failure aborts the rest of the loop. -/
def processRows (store : Store) (token : Int) :
    List EventsStreamRow → List Effect × Option String
  | [] => ([], none)
  | row :: rest =>
    match processRow store token row with
    | (effs, some e) => (effs, some e)
    | (effs, none) =>
      match processRows store token rest with
      | (effs2, err) => (effs ++ effs2, err)

/-- `ReplicationDataHandler.on_rdata`: unconditionally forwards the batch to
`store.process_replication_rows`; then, if the stream is the events stream,
runs the row loop and finally nudges the push pool with
`on_new_notifications(token, token)`.  A not-found failure from an event
fetch propagates (the push nudge is then not reached).  The result is the
ordered effect trace and the propagated failure, if any. -/
def on_rdata (store : Store) (stream_name instance_name : String)
    (token : Int) (rows : List EventsStreamRow) :
    List Effect × Option String :=
  let storeWrite := Effect.processReplicationRows stream_name instance_name
    token rows
  if stream_name = EventsStream.NAME then
    match processRows store token rows with
    | (effs, some e) => (storeWrite :: effs, some e)
    | (effs, none) =>
      (storeWrite :: effs ++ [Effect.onNewNotifications token token], none)
  else ([storeWrite], none)

/-- `ReplicationDataHandler.on_position`: a single
`store.process_replication_rows` call with an empty row list; nothing
else. -/
def on_position (stream_name instance_name : String) (token : Int) :
    List Effect × Option String :=
  ([Effect.processReplicationRows stream_name instance_name token []], none)

/-- Is the effect a `store.process_replication_rows` call? -/
def isStoreWrite : Effect → Bool
  | Effect.processReplicationRows _ _ _ _ => true
  | _ => false

/-- Is the effect a `notifier.on_new_room_event` call? -/
def isNotifierCall : Effect → Bool
  | Effect.onNewRoomEvent _ _ _ _ => true
  | _ => false

/-- Is the effect a `pusher_pool.on_new_notifications` call? -/
def isPushCall : Effect → Bool
  | Effect.onNewNotifications _ _ => true
  | _ => false

/-- A store with no events at all (every fetch fails not-found). -/
def emptyStore : Store := ⟨fun _ => none, 0⟩

/-- State of a `DirectTcpReplicationClientFactory` instance.  `initialDelay`
and `maxDelay` hold the class-attribute values from the source
(`initialDelay = 0.1`, `maxDelay = 1`, in seconds); `currentDelay`,
`stopRequested` and `pendingRetry` are modelled from the spec: the backoff
state of the retry machinery — current delay, "stop requested" flag, and
the pending scheduled retry, if any. -/
structure FactoryState where
  initialDelay : ℚ
  maxDelay : ℚ
  currentDelay : ℚ
  stopRequested : Bool
  pendingRetry : Option ℚ
  client_name : String
  server_name : String
deriving DecidableEq

/-- An action registered with the reactor's shutdown hook. -/
inductive Trigger where
  | stopTryingOnShutdown
deriving DecidableEq, Repr

/-- `DirectTcpReplicationClientFactory.__init__` together with the class
attributes `initialDelay = 0.1` and `maxDelay = 1`: stores the identities
and registers `self.stopTrying` as a before-shutdown trigger, once.
Modelled from the spec for the inherited backoff fields: the current delay
starts at the initial delay with the stop flag clear and no pending retry.
Returns the initial state and the list of registered shutdown triggers. -/
def mkFactory (client_name server_name : String) :
    FactoryState × List Trigger :=
  ({ initialDelay := 1 / 10
     maxDelay := 1
     currentDelay := 1 / 10
     stopRequested := false
     pendingRetry := none
     client_name := client_name
     server_name := server_name },
   [Trigger.stopTryingOnShutdown])

/-- Modelled from the spec: the bounded-backoff retry policy of the base
reconnecting factory.  If stop was requested, no attempt is scheduled;
otherwise the next attempt is scheduled after the current delay, and the
delay then grows multiplicatively by `factor`, capped at the maximum.
Returns the new state and the scheduled delay, if any. -/
def retry (factor : ℚ) (st : FactoryState) : FactoryState × Option ℚ :=
  if st.stopRequested then (st, none)
  else
    ({ st with
        currentDelay := min (st.currentDelay * factor) st.maxDelay
        pendingRetry := some st.currentDelay },
     some st.currentDelay)

/-- `DirectTcpReplicationClientFactory.clientConnectionLost`: logs the
reason, then defers to the base class's retry policy. -/
def clientConnectionLost (factor : ℚ) (st : FactoryState) :
    FactoryState × Option ℚ :=
  retry factor st

/-- `DirectTcpReplicationClientFactory.clientConnectionFailed`: logs the
reason, then defers to the base class's retry policy. -/
def clientConnectionFailed (factor : ℚ) (st : FactoryState) :
    FactoryState × Option ℚ :=
  retry factor st

/-- The session object built on a successful connection
(`ClientReplicationStreamProtocol(hs, client_name, server_name, clock,
command_handler)`), reduced to the identity fields the factory passes. -/
structure ClientReplicationStreamProtocol where
  client_name : String
  server_name : String
deriving DecidableEq, Repr

/-- `DirectTcpReplicationClientFactory.buildProtocol`: logs, constructs and
returns a new `ClientReplicationStreamProtocol`; the factory state — in
particular the backoff delay — is not touched (no reset on success). -/
def buildProtocol (st : FactoryState) :
    FactoryState × ClientReplicationStreamProtocol :=
  (st, ⟨st.client_name, st.server_name⟩)

/-- Modelled from the spec: `stopTrying` — idempotent; sets the "stop
requested" flag and cancels any pending scheduled retry. -/
def stopTrying (st : FactoryState) : FactoryState :=
  { st with stopRequested := true, pendingRetry := none }

/-- The factory state after `n` consecutive connection failures with no
intervening success. -/
def failN (factor : ℚ) (st : FactoryState) : Nat → FactoryState
  | 0 => st
  | n + 1 => (clientConnectionFailed factor (failN factor st n)).1

/-- The delay scheduled before the attempt that follows the `(n+1)`-th
consecutive connection failure. -/
def attemptDelay (factor : ℚ) (st : FactoryState) (n : Nat) : Option ℚ :=
  (clientConnectionFailed factor (failN factor st n)).2

/-- A store holding a single non-rejected membership event for `$e1`. -/
def memberStore : Store :=
  ⟨fun i => if i = "$e1" then
      some ⟨"m.room.member", "@bob:example.org", none⟩
    else none, 9⟩

/-- A store holding a rejected event for `$r` and a deliverable
(non-rejected, non-membership) event for `$d`. -/
def mixedStore : Store :=
  ⟨fun i =>
    if i = "$r" then some ⟨"m.room.message", "", some "rejected"⟩
    else if i = "$d" then some ⟨"m.room.message", "", none⟩
    else none, 7⟩

theorem processRow_not_store_not_push (store : Store) (tok : Int)
    (row : EventsStreamRow) :
    ∀ e ∈ (processRow store tok row).1,
      isStoreWrite e = false ∧ isPushCall e = false := by
  intro e he
  unfold processRow at he
  split at he
  · simp at he
  · split at he
    · simp at he
      subst he
      exact ⟨rfl, rfl⟩
    · split at he
      · simp at he
        subst he
        exact ⟨rfl, rfl⟩
      · simp at he
        rcases he with he | he | he <;> subst he <;> exact ⟨rfl, rfl⟩

theorem processRows_not_store_not_push (store : Store) (tok : Int)
    (rows : List EventsStreamRow) :
    ∀ e ∈ (processRows store tok rows).1,
      isStoreWrite e = false ∧ isPushCall e = false := by
  induction rows with
  | nil =>
    intro e he
    simp [processRows] at he
  | cons row rest ih =>
    intro e he
    unfold processRows at he
    rcases h1 : processRow store tok row with ⟨effs, err⟩
    rw [h1] at he
    have hrow := processRow_not_store_not_push store tok row
    rw [h1] at hrow
    cases err with
    | some a =>
      exact hrow e he
    | none =>
      rcases h2 : processRows store tok rest with ⟨effs2, err2⟩
      rw [h2] at he
      simp at he
      rcases he with he | he
      · exact hrow e he
      · have := ih e
        rw [h2] at this
        exact this he

theorem processRow_notifier_shape (store : Store) (tok : Int)
    (row : EventsStreamRow) (ev : Event) (t mt : Int) (xs : List String)
    (h : Effect.onNewRoomEvent ev t mt xs ∈ (processRow store tok row).1) :
    xs = (if ev.type = EventTypes.Member then [ev.state_key] else []) ∧
    rejectedTruthy ev.rejected_reason = false ∧
    t = tok ∧ mt = store.roomMaxStreamOrdering := by
  unfold processRow at h
  split at h
  · simp at h
  · split at h
    · simp at h
    · split at h
      · simp at h
      · rename_i event heq hrej
        simp at h
        rcases h with ⟨h1, h2, h3, h4⟩
        subst h1; subst h2; subst h3; subst h4
        exact ⟨rfl, by simpa using hrej, rfl, rfl⟩

theorem processRows_notifier_shape (store : Store) (tok : Int)
    (rows : List EventsStreamRow) (ev : Event) (t mt : Int) (xs : List String)
    (h : Effect.onNewRoomEvent ev t mt xs ∈ (processRows store tok rows).1) :
    xs = (if ev.type = EventTypes.Member then [ev.state_key] else []) ∧
    rejectedTruthy ev.rejected_reason = false ∧
    t = tok ∧ mt = store.roomMaxStreamOrdering := by
  induction rows with
  | nil =>
    simp [processRows] at h
  | cons row rest ih =>
    unfold processRows at h
    rcases h1 : processRow store tok row with ⟨effs, err⟩
    rw [h1] at h
    cases err with
    | some a =>
      refine processRow_notifier_shape store tok row ev t mt xs ?_
      rw [h1]
      exact h
    | none =>
      rcases h2 : processRows store tok rest with ⟨effs2, err2⟩
      rw [h2] at h
      simp at h
      rcases h with h | h
      · refine processRow_notifier_shape store tok row ev t mt xs ?_
        rw [h1]
        exact h
      · refine ih ?_
        rw [h2]
        exact h

theorem on_rdata_notifier_mem_processRows (store : Store)
    (stream_name instance_name : String) (token : Int)
    (rows : List EventsStreamRow) (ev : Event) (t mt : Int) (xs : List String)
    (h : Effect.onNewRoomEvent ev t mt xs ∈
      (on_rdata store stream_name instance_name token rows).1) :
    Effect.onNewRoomEvent ev t mt xs ∈ (processRows store token rows).1 := by
  unfold on_rdata at h
  by_cases hs : stream_name = EventsStream.NAME
  · rw [if_pos hs] at h
    rcases h1 : processRows store token rows with ⟨effs, err⟩
    rw [h1] at h
    cases err with
    | some a =>
      dsimp only at h
      rw [List.mem_cons] at h
      rcases h with h | h
      · simp at h
      · exact h
    | none =>
      dsimp only at h
      simp only [List.mem_cons, List.mem_append, List.mem_singleton,
        reduceCtorEq, false_or, or_false] at h
      rcases h with h | h
      · exact h
      · simp at h
  · rw [if_neg hs] at h
    simp at h

theorem processRows_cons_some (store : Store) (tok : Int)
    (r : EventsStreamRow) (xs : List EventsStreamRow) (effs : List Effect)
    (e : String) (hr : processRow store tok r = (effs, some e)) :
    processRows store tok (r :: xs) = (effs, some e) := by
  unfold processRows
  rw [hr]

theorem processRows_cons_none (store : Store) (tok : Int)
    (r : EventsStreamRow) (xs : List EventsStreamRow) (effs : List Effect)
    (hr : processRow store tok r = (effs, none)) :
    processRows store tok (r :: xs) =
      (effs ++ (processRows store tok xs).1, (processRows store tok xs).2) := by
  simp only [processRows]
  rw [hr]

theorem processRows_append (store : Store) (tok : Int)
    (pre rest : List EventsStreamRow)
    (h : (processRows store tok pre).2 = none) :
    (processRows store tok (pre ++ rest)).1 =
      (processRows store tok pre).1 ++ (processRows store tok rest).1 ∧
    (processRows store tok (pre ++ rest)).2 =
      (processRows store tok rest).2 := by
  induction pre with
  | nil =>
    simp [processRows]
  | cons r rs ih =>
    rcases hr : processRow store tok r with ⟨effs, err⟩
    cases err with
    | some e =>
      exfalso
      rw [processRows_cons_some store tok r rs effs e hr] at h
      simp at h
    | none =>
      have hrs : (processRows store tok rs).2 = none := by
        rw [processRows_cons_none store tok r rs effs hr] at h
        simpa using h
      have ih2 := ih hrs
      rw [List.cons_append,
        processRows_cons_none store tok r (rs ++ rest) effs hr,
        processRows_cons_none store tok r rs effs hr]
      dsimp only
      rw [ih2.1, ih2.2, List.append_assoc]
      exact ⟨rfl, rfl⟩

theorem failN_maxDelay (factor : ℚ) (st : FactoryState) (n : Nat) :
    (failN factor st n).maxDelay = st.maxDelay := by
  induction n with
  | zero => rfl
  | succ n ih =>
    show ((retry factor (failN factor st n)).1).maxDelay = st.maxDelay
    unfold retry
    split
    · exact ih
    · simpa using ih

theorem failN_stopRequested (factor : ℚ) (st : FactoryState) (n : Nat) :
    (failN factor st n).stopRequested = st.stopRequested := by
  induction n with
  | zero => rfl
  | succ n ih =>
    show ((retry factor (failN factor st n)).1).stopRequested = st.stopRequested
    unfold retry
    split
    · exact ih
    · simpa using ih

theorem failN_currentDelay_bounds (factor : ℚ) (st : FactoryState) (n : Nat)
    (hf : 1 ≤ factor) (h0 : 0 ≤ st.currentDelay)
    (h1 : st.currentDelay ≤ st.maxDelay) :
    0 ≤ (failN factor st n).currentDelay ∧
    (failN factor st n).currentDelay ≤ st.maxDelay := by
  induction n with
  | zero => exact ⟨h0, h1⟩
  | succ n ih =>
    have hstep : failN factor st (n + 1) = (retry factor (failN factor st n)).1 := rfl
    rw [hstep]
    unfold retry
    by_cases hs : (failN factor st n).stopRequested
    · rw [if_pos hs]
      exact ih
    · rw [if_neg hs]
      dsimp only
      rw [failN_maxDelay]
      exact ⟨le_min (mul_nonneg ih.1 (le_trans zero_le_one hf))
          (le_trans ih.1 ih.2), min_le_right _ _⟩

theorem failN_currentDelay_mono (factor : ℚ) (st : FactoryState) (n : Nat)
    (hf : 1 ≤ factor) (h0 : 0 ≤ st.currentDelay)
    (h1 : st.currentDelay ≤ st.maxDelay) :
    (failN factor st n).currentDelay ≤ (failN factor st (n + 1)).currentDelay := by
  have hb := failN_currentDelay_bounds factor st n hf h0 h1
  have hstep : failN factor st (n + 1) = (retry factor (failN factor st n)).1 := rfl
  rw [hstep]
  unfold retry
  by_cases hs : (failN factor st n).stopRequested
  · rw [if_pos hs]
  · rw [if_neg hs]
    dsimp only
    refine le_min (le_mul_of_one_le_right hb.1 hf) ?_
    rw [failN_maxDelay]
    exact hb.2

theorem attemptDelay_eq_currentDelay (factor : ℚ) (st : FactoryState) (n : Nat)
    (hstop : st.stopRequested = false) :
    attemptDelay factor st n = some ((failN factor st n).currentDelay) := by
  have h : (failN factor st n).stopRequested = false := by
    rw [failN_stopRequested]; exact hstop
  unfold attemptDelay clientConnectionFailed retry
  simp [h]

/-- Claim C1: every `on_rdata` call makes exactly one
`store.process_replication_rows` call, with exactly the four arguments it
received, and that call comes before any derivation work (it is the first
effect of the trace); rows the derivation step ignores are still in it. -/
theorem on_rdata_store_write_first_and_once (store : Store)
    (stream_name instance_name : String) (token : Int)
    (rows : List EventsStreamRow) :
    (on_rdata store stream_name instance_name token rows).1.head? =
      some (Effect.processReplicationRows stream_name instance_name token rows) ∧
    (on_rdata store stream_name instance_name token rows).1.countP isStoreWrite = 1 := by
  unfold on_rdata
  by_cases hs : stream_name = EventsStream.NAME
  · rw [if_pos hs]
    rcases h1 : processRows store token rows with ⟨effs, err⟩
    have heffs := processRows_not_store_not_push store token rows
    rw [h1] at heffs
    have hz : effs.countP isStoreWrite = 0 :=
      List.countP_eq_zero.mpr fun e he => by simp [(heffs e he).1]
    cases err with
    | some a =>
      exact ⟨rfl, by simp [List.countP_cons, hz, isStoreWrite]⟩
    | none =>
      exact ⟨rfl, by simp [List.countP_cons, List.countP_append, hz, isStoreWrite]⟩
  · rw [if_neg hs]
    exact ⟨rfl, by simp [isStoreWrite]⟩

/-- Claim C2: the extra-users argument of every
`notifier.on_new_room_event` call made by `on_rdata` is the singleton
holding the event's state key when the event's type is the
membership-change type, and empty for every other event type. -/
theorem on_rdata_extra_users (store : Store)
    (stream_name instance_name : String) (token : Int)
    (rows : List EventsStreamRow) (ev : Event) (t mt : Int) (xs : List String)
    (h : Effect.onNewRoomEvent ev t mt xs ∈
      (on_rdata store stream_name instance_name token rows).1) :
    xs = if ev.type = EventTypes.Member then [ev.state_key] else [] := by
  unfold on_rdata at h
  by_cases hs : stream_name = EventsStream.NAME
  · rw [if_pos hs] at h
    rcases h1 : processRows store token rows with ⟨effs, err⟩
    rw [h1] at h
    cases err with
    | some a =>
      dsimp only at h
      rw [List.mem_cons] at h
      rcases h with h | h
      · simp at h
      · exact (processRows_notifier_shape store token rows ev t mt xs
          (by rw [h1]; exact h)).1
    | none =>
      dsimp only at h
      simp only [List.mem_cons, List.mem_append, List.mem_singleton,
        reduceCtorEq, false_or, or_false] at h
      rcases h with h | h
      · exact (processRows_notifier_shape store token rows ev t mt xs
          (by rw [h1]; exact h)).1
      · simp at h
  · rw [if_neg hs] at h
    simp at h

/-- Claim C3: no `notifier.on_new_room_event` call made by `on_rdata` ever
carries an event with a truthy rejection reason — so in any batch, mixed
ones included, a row whose event is fetched rejected gets no notifier call
for that row — while the `store.process_replication_rows` call of step 1
still occurs. -/
theorem on_rdata_no_rejected_delivery (store : Store)
    (stream_name instance_name : String) (token : Int)
    (rows : List EventsStreamRow) (ev : Event) (t mt : Int) (xs : List String)
    (h : Effect.onNewRoomEvent ev t mt xs ∈
      (on_rdata store stream_name instance_name token rows).1) :
    rejectedTruthy ev.rejected_reason = false ∧
    Effect.processReplicationRows stream_name instance_name token rows ∈
      (on_rdata store stream_name instance_name token rows).1 := by
  constructor
  · exact (processRows_notifier_shape store token rows ev t mt xs
      (on_rdata_notifier_mem_processRows store stream_name instance_name token
        rows ev t mt xs h)).2.1
  · unfold on_rdata
    by_cases hs : stream_name = EventsStream.NAME
    · rw [if_pos hs]
      rcases h1 : processRows store token rows with ⟨effs, err⟩
      cases err <;> simp
    · rw [if_neg hs]
      simp

/-- Claim C3 witness: in a mixed events-stream batch holding a rejected
row `$r` and a deliverable row `$d`, the one notifier call that occurs
carries the non-rejected `$d` event, and the store write still occurs. -/
theorem on_rdata_no_rejected_delivery_witness :
    (Effect.onNewRoomEvent ⟨"m.room.message", "", none⟩ 4 7 [] ∈
      (on_rdata mixedStore EventsStream.NAME "master" 4
        [⟨"ev", "$r"⟩, ⟨"ev", "$d"⟩]).1) ∧
    (rejectedTruthy (⟨"m.room.message", "", none⟩ : Event).rejected_reason =
        false ∧
     Effect.processReplicationRows EventsStream.NAME "master" 4
        [⟨"ev", "$r"⟩, ⟨"ev", "$d"⟩] ∈
      (on_rdata mixedStore EventsStream.NAME "master" 4
        [⟨"ev", "$r"⟩, ⟨"ev", "$d"⟩]).1) :=
  ⟨by decide,
   on_rdata_no_rejected_delivery mixedStore EventsStream.NAME "master" 4
     [⟨"ev", "$r"⟩, ⟨"ev", "$d"⟩] ⟨"m.room.message", "", none⟩ 4 7 []
     (by decide)⟩

/-- Claim C2 witness: a non-rejected membership event with state key
`"@bob:example.org"` is delivered with exactly that singleton as
extra-users. -/
theorem on_rdata_extra_users_witness :
    (Effect.onNewRoomEvent ⟨"m.room.member", "@bob:example.org", none⟩
        5 9 ["@bob:example.org"] ∈
      (on_rdata memberStore EventsStream.NAME "master" 5
        [⟨"ev", "$e1"⟩]).1) ∧
    (["@bob:example.org"] =
      if (⟨"m.room.member", "@bob:example.org", none⟩ : Event).type =
          EventTypes.Member
      then [(⟨"m.room.member", "@bob:example.org", none⟩ : Event).state_key]
      else []) :=
  ⟨by decide,
   on_rdata_extra_users memberStore EventsStream.NAME "master" 5
     [⟨"ev", "$e1"⟩] ⟨"m.room.member", "@bob:example.org", none⟩ 5 9
     ["@bob:example.org"] (by decide)⟩

/-- Claim C10: for a stream other than the events stream, the single store
write is the whole behaviour of `on_rdata` — no event fetch, no notifier
call, no push-pool call, and no failure, whatever the rows are. -/
theorem on_rdata_non_events_store_only (store : Store)
    (stream_name instance_name : String) (token : Int)
    (rows : List EventsStreamRow) (h : stream_name ≠ EventsStream.NAME) :
    on_rdata store stream_name instance_name token rows =
      ([Effect.processReplicationRows stream_name instance_name token rows],
       none) := by
  unfold on_rdata
  rw [if_neg h]

/-- Claim C10 witness: a typing-stream batch with an event-shaped row still
produces only the store write. -/
theorem on_rdata_non_events_store_only_witness :
    (("typing" : String) ≠ EventsStream.NAME) ∧
    on_rdata emptyStore "typing" "master" 3 [⟨"ev", "$m1"⟩] =
      ([Effect.processReplicationRows "typing" "master" 3 [⟨"ev", "$m1"⟩]],
       none) :=
  ⟨by decide,
   on_rdata_non_events_store_only emptyStore "typing" "master" 3
     [⟨"ev", "$m1"⟩] (by decide)⟩

/-- Claim C4 counterexample: an events-stream batch whose single row
references a missing event ends with a propagated not-found failure and
zero `pusher_pool.on_new_notifications` calls, refuting "exactly one push
call for every events-stream `on_rdata` call". -/
theorem on_rdata_push_cardinality_cex :
    (on_rdata emptyStore EventsStream.NAME "master" 3
      [⟨"ev", "$m1"⟩]).1.countP isPushCall = 0 ∧
    ¬ (on_rdata emptyStore EventsStream.NAME "master" 3
      [⟨"ev", "$m1"⟩]).1.countP isPushCall = 1 := by
  decide

/-- Claim C4 as amended: whenever an events-stream `on_rdata` call
completes without a propagated not-found failure, exactly one
`pusher_pool.on_new_notifications` call is made, with both arguments equal
to the batch token, regardless of how many qualifying rows the batch
contains (including zero). -/
theorem on_rdata_events_single_push (store : Store) (instance_name : String)
    (token : Int) (rows : List EventsStreamRow)
    (h : (on_rdata store EventsStream.NAME instance_name token rows).2 = none) :
    (on_rdata store EventsStream.NAME instance_name token rows).1.countP
      isPushCall = 1 ∧
    Effect.onNewNotifications token token ∈
      (on_rdata store EventsStream.NAME instance_name token rows).1 := by
  unfold on_rdata at h ⊢
  rw [if_pos rfl] at h ⊢
  rcases h1 : processRows store token rows with ⟨effs, err⟩
  have heffs := processRows_not_store_not_push store token rows
  rw [h1] at heffs
  have hz : effs.countP isPushCall = 0 :=
    List.countP_eq_zero.mpr fun e he => by simp [(heffs e he).2]
  cases err with
  | some a =>
    rw [h1] at h
    simp at h
  | none =>
    dsimp only
    exact ⟨by simp [List.countP_cons, List.countP_append, hz, isPushCall],
      by simp⟩

/-- Claim C4 witness: an events-stream batch with zero rows completes
without failure and makes exactly one push-pool call with
`from = to = token`. -/
theorem on_rdata_events_single_push_witness :
    (on_rdata emptyStore EventsStream.NAME "master" 3 []).2 = none ∧
    ((on_rdata emptyStore EventsStream.NAME "master" 3 []).1.countP
        isPushCall = 1 ∧
     Effect.onNewNotifications 3 3 ∈
       (on_rdata emptyStore EventsStream.NAME "master" 3 []).1) :=
  ⟨by decide, on_rdata_events_single_push emptyStore "master" 3 [] (by decide)⟩

/-- Claim C5 counterexample: for the events stream, `on_position` is not
equivalent to `on_rdata` with an empty row sequence — `on_rdata` also
makes the push-pool nudge, which `on_position` never does. -/
theorem on_position_equivalence_cex :
    on_position EventsStream.NAME "master" 7 ≠
      on_rdata emptyStore EventsStream.NAME "master" 7 [] := by
  decide

/-- Claim C5 as amended: `on_position` performs exactly the store write
with an empty row sequence — no event fetch, notifier, or push-pool call —
and coincides with `on_rdata` on an empty row sequence for every stream
other than the events stream; for the events stream, `on_rdata` with empty
rows additionally makes the single push-pool nudge. -/
theorem on_position_store_only (store : Store)
    (stream_name instance_name : String) (token : Int)
    (h : stream_name ≠ EventsStream.NAME) :
    on_position stream_name instance_name token =
      ([Effect.processReplicationRows stream_name instance_name token []],
       none) ∧
    on_position stream_name instance_name token =
      on_rdata store stream_name instance_name token [] ∧
    on_rdata store EventsStream.NAME instance_name token [] =
      ([Effect.processReplicationRows EventsStream.NAME instance_name token [],
        Effect.onNewNotifications token token], none) ∧
    on_position EventsStream.NAME instance_name token =
      ([Effect.processReplicationRows EventsStream.NAME instance_name token []],
       none) := by
  refine ⟨rfl, ?_, ?_, rfl⟩
  · unfold on_position on_rdata
    rw [if_neg h]
  · unfold on_rdata
    rw [if_pos rfl]
    rfl

/-- Claim C5 witness: for the typing stream, `on_position` and `on_rdata`
with empty rows agree; for the events stream, the push nudge is the only
difference. -/
theorem on_position_store_only_witness :
    ("typing" : String) ≠ EventsStream.NAME ∧
    (on_position "typing" "master" 7 =
      ([Effect.processReplicationRows "typing" "master" 7 []], none) ∧
     on_position "typing" "master" 7 =
       on_rdata emptyStore "typing" "master" 7 [] ∧
     on_rdata emptyStore EventsStream.NAME "master" 7 [] =
       ([Effect.processReplicationRows EventsStream.NAME "master" 7 [],
         Effect.onNewNotifications 7 7], none) ∧
     on_position EventsStream.NAME "master" 7 =
       ([Effect.processReplicationRows EventsStream.NAME "master" 7 []],
        none)) :=
  ⟨by decide, on_position_store_only emptyStore "typing" "master" 7 (by decide)⟩

/-- Claim C6 counterexample: in an events-stream batch whose first row
references an event the store does not hold, the not-found failure
propagates out of `on_rdata` (it is not swallowed) and the second row of
the batch is never processed — its event is never fetched — refuting
"does not raise or propagate an error, and continues processing the rest
of the batch". -/
theorem on_rdata_missing_event_cex :
    (on_rdata emptyStore EventsStream.NAME "master" 3
      [⟨"ev", "$m1"⟩, ⟨"ev", "$m2"⟩]).2 = some "$m1" ∧
    Effect.getEvent "$m2" true ∉
      (on_rdata emptyStore EventsStream.NAME "master" 3
        [⟨"ev", "$m1"⟩, ⟨"ev", "$m2"⟩]).1 ∧
    (on_rdata emptyStore EventsStream.NAME "master" 3
      [⟨"ev", "$m1"⟩, ⟨"ev", "$m2"⟩]).1.countP isNotifierCall = 0 := by
  decide

/-- Claim C6 as amended: an events-stream row whose event identifier the
store's `get_event` fails to find — at any position after a prefix of rows
that processed without failure (skipped or delivered) — makes the
not-found failure propagate out of `on_rdata`: the trace holds the store
write first, then the prefix's effects, then the failing fetch, and
nothing else — no notifier call for that row, no processing of the
remaining rows, and no push nudge. -/
theorem on_rdata_missing_event_propagates (store : Store)
    (instance_name : String) (token : Int) (pre : List EventsStreamRow)
    (row : EventsStreamRow) (post : List EventsStreamRow)
    (hpre : (processRows store token pre).2 = none)
    (h1 : row.type = EventsStreamEventRow.TypeId)
    (h2 : store.getEvent row.event_id = none) :
    on_rdata store EventsStream.NAME instance_name token
        (pre ++ row :: post) =
      (Effect.processReplicationRows EventsStream.NAME instance_name token
          (pre ++ row :: post) ::
        (processRows store token pre).1 ++ [Effect.getEvent row.event_id true],
       some row.event_id) ∧
    (on_rdata store EventsStream.NAME instance_name token
        (pre ++ row :: post)).1.countP isPushCall = 0 := by
  have hrow : processRow store token row =
      ([Effect.getEvent row.event_id true], some row.event_id) := by
    unfold processRow
    rw [h1, h2]
    simp
  have hhead : processRows store token (row :: post) =
      ([Effect.getEvent row.event_id true], some row.event_id) :=
    processRows_cons_some store token row post _ _ hrow
  have happ := processRows_append store token pre (row :: post) hpre
  have hfull : processRows store token (pre ++ row :: post) =
      ((processRows store token pre).1 ++ [Effect.getEvent row.event_id true],
       some row.event_id) := by
    rcases happ with ⟨ha, hb⟩
    rw [hhead] at ha hb
    rw [Prod.ext_iff]
    exact ⟨ha, hb⟩
  have htrace : on_rdata store EventsStream.NAME instance_name token
      (pre ++ row :: post) =
      (Effect.processReplicationRows EventsStream.NAME instance_name token
          (pre ++ row :: post) ::
        (processRows store token pre).1 ++ [Effect.getEvent row.event_id true],
       some row.event_id) := by
    unfold on_rdata
    rw [if_pos rfl, hfull]
    rfl
  refine ⟨htrace, ?_⟩
  rw [htrace]
  have hpre0 := processRows_not_store_not_push store token pre
  have hz : (processRows store token pre).1.countP isPushCall = 0 :=
    List.countP_eq_zero.mpr fun e he => by simp [(hpre0 e he).2]
  simp [List.countP_cons, List.countP_append, hz, isPushCall]

/-- Claim C6 witness: a missing-event row sitting after a skipped-kind row
and before a further event row propagates the not-found failure; the trace
holds only the store write, the skipped prefix's (empty) effects and the
failing fetch. -/
theorem on_rdata_missing_event_propagates_witness :
    ((processRows emptyStore 4 [⟨"other", "$skip"⟩]).2 = none ∧
     (⟨"ev", "$m1"⟩ : EventsStreamRow).type = EventsStreamEventRow.TypeId ∧
     emptyStore.getEvent (⟨"ev", "$m1"⟩ : EventsStreamRow).event_id = none) ∧
    (on_rdata emptyStore EventsStream.NAME "master" 4
        ([⟨"other", "$skip"⟩] ++ (⟨"ev", "$m1"⟩ : EventsStreamRow) ::
          [⟨"ev", "$m2"⟩]) =
      (Effect.processReplicationRows EventsStream.NAME "master" 4
          ([⟨"other", "$skip"⟩] ++ (⟨"ev", "$m1"⟩ : EventsStreamRow) ::
            [⟨"ev", "$m2"⟩]) ::
        (processRows emptyStore 4 [⟨"other", "$skip"⟩]).1 ++
          [Effect.getEvent (⟨"ev", "$m1"⟩ : EventsStreamRow).event_id true],
       some (⟨"ev", "$m1"⟩ : EventsStreamRow).event_id) ∧
     (on_rdata emptyStore EventsStream.NAME "master" 4
        ([⟨"other", "$skip"⟩] ++ (⟨"ev", "$m1"⟩ : EventsStreamRow) ::
          [⟨"ev", "$m2"⟩])).1.countP isPushCall = 0) :=
  ⟨⟨by decide, by decide, by decide⟩,
   on_rdata_missing_event_propagates emptyStore "master" 4
     [⟨"other", "$skip"⟩] ⟨"ev", "$m1"⟩ [⟨"ev", "$m2"⟩]
     (by decide) (by decide) (by decide)⟩

/-- Claim C7: across consecutive connection failures with no intervening
success, the scheduled retry delays are non-decreasing, never exceed the
configured maximum, start at the configured initial delay, and the
configured class-attribute defaults are 0.1 seconds initial and 1 second
maximum, for any growth factor of at least one. -/
theorem backoff_monotone_bounded (c s : String) (factor : ℚ) (n : Nat)
    (h : 1 ≤ factor) :
    (mkFactory c s).1.initialDelay = 1 / 10 ∧
    (mkFactory c s).1.maxDelay = 1 ∧
    attemptDelay factor (mkFactory c s).1 0 =
      some ((mkFactory c s).1.initialDelay) ∧
    attemptDelay factor (mkFactory c s).1 n =
      some ((failN factor (mkFactory c s).1 n).currentDelay) ∧
    (failN factor (mkFactory c s).1 n).currentDelay ≤
      (failN factor (mkFactory c s).1 (n + 1)).currentDelay ∧
    (failN factor (mkFactory c s).1 n).currentDelay ≤
      (mkFactory c s).1.maxDelay := by
  have h0 : (0 : ℚ) ≤ (mkFactory c s).1.currentDelay := by
    norm_num [mkFactory]
  have h1 : (mkFactory c s).1.currentDelay ≤ (mkFactory c s).1.maxDelay := by
    norm_num [mkFactory]
  have hstop : (mkFactory c s).1.stopRequested = false := rfl
  refine ⟨rfl, rfl, ?_,
    attemptDelay_eq_currentDelay factor _ n hstop,
    failN_currentDelay_mono factor _ n h h0 h1,
    (failN_currentDelay_bounds factor _ n h h0 h1).2⟩
  rw [attemptDelay_eq_currentDelay factor _ 0 hstop]
  rfl

/-- Claim C7 witness: with growth factor 3, the delay before the third
attempt is still bounded by the maximum and no smaller than its
predecessor, and the first attempt uses the 0.1-second initial delay. -/
theorem backoff_monotone_bounded_witness :
    (1 : ℚ) ≤ 3 ∧
    ((mkFactory "client" "server").1.initialDelay = 1 / 10 ∧
     (mkFactory "client" "server").1.maxDelay = 1 ∧
     attemptDelay 3 (mkFactory "client" "server").1 0 =
       some ((mkFactory "client" "server").1.initialDelay) ∧
     attemptDelay 3 (mkFactory "client" "server").1 2 =
       some ((failN 3 (mkFactory "client" "server").1 2).currentDelay) ∧
     (failN 3 (mkFactory "client" "server").1 2).currentDelay ≤
       (failN 3 (mkFactory "client" "server").1 (2 + 1)).currentDelay ∧
     (failN 3 (mkFactory "client" "server").1 2).currentDelay ≤
       (mkFactory "client" "server").1.maxDelay) :=
  ⟨by decide, backoff_monotone_bounded "client" "server" 3 2 (by decide)⟩

/-- Claim C8: `buildProtocol` leaves the factory state — in particular the
current backoff delay — unchanged, so after a transient success followed by
a failure the next scheduled retry delay continues from the previously
grown value; concretely, from the defaults with factor 2, one failure, a
success and another failure schedule 1/5 of a second, not the initial
1/10. -/
theorem buildProtocol_keeps_delay (st : FactoryState) (factor : ℚ) (n : Nat) :
    (buildProtocol st).1 = st ∧
    (buildProtocol st).1.currentDelay = st.currentDelay ∧
    clientConnectionFailed factor (buildProtocol (failN factor st n)).1 =
      clientConnectionFailed factor (failN factor st n) ∧
    clientConnectionLost factor (buildProtocol st).1 =
      clientConnectionLost factor st ∧
    (clientConnectionFailed 2
        (buildProtocol (failN 2 (mkFactory "c" "s").1 1)).1).2 =
      some (1 / 5) ∧
    (1 / 5 : ℚ) ≠ (mkFactory "c" "s").1.initialDelay := by
  refine ⟨rfl, rfl, rfl, rfl, ?_, ?_⟩
  · have e1 : failN 2 (mkFactory "c" "s").1 1 =
        { initialDelay := 1 / 10, maxDelay := 1, currentDelay := 1 / 5,
          stopRequested := false, pendingRetry := some (1 / 10),
          client_name := "c", server_name := "s" } := by
      show (retry 2 (mkFactory "c" "s").1).1 = _
      unfold retry mkFactory
      norm_num [min_def]
    show (clientConnectionFailed 2 (failN 2 (mkFactory "c" "s").1 1)).2 =
      some (1 / 5)
    rw [e1]
    unfold clientConnectionFailed retry
    norm_num
  · norm_num [mkFactory]

/-- Claim C9: the stop operation is idempotent, cancels the pending retry,
and after it neither the connection-lost nor the connection-failed callback
changes the state or schedules an attempt; the shutdown trigger registered
at construction is exactly one invocation of the stop operation. -/
theorem stopTrying_idempotent_halts_retries (st : FactoryState) (factor : ℚ)
    (c s : String) :
    stopTrying (stopTrying st) = stopTrying st ∧
    (stopTrying st).pendingRetry = none ∧
    clientConnectionFailed factor (stopTrying st) = (stopTrying st, none) ∧
    clientConnectionLost factor (stopTrying st) = (stopTrying st, none) ∧
    (mkFactory c s).2 = [Trigger.stopTryingOnShutdown] ∧
    (mkFactory c s).2.length = 1 := by
  exact ⟨rfl, rfl, rfl, rfl, rfl, rfl⟩
